import Mathlib

/-!
Shallow embedding of src/redleavesscan.py (RedLeaves configuration scanner,
a Volatility plugin).  Byte windows are lists of Nat (one entry per byte);
Python exceptions are explicit error values of type PyErr threaded through
Except; Python negative indexing and slice clipping are reproduced exactly
by pyIndex and pySlice, and struct.unpack / struct.unpack_from length
requirements by unpackU32 / unpackFromBytes / unpackFromU32.
-/

set_option maxRecDepth 4000

/-- Python exceptions the scanner code can raise while processing a hit. -/
inductive PyErr where
  | indexError
  | structError
  | keyError
  | attributeError
  deriving DecidableEq

deriving instance DecidableEq for Except

/-- A raw byte window read out of process memory (zread result). -/
abbrev Bytes := List Nat

/-- Python sequence indexing data[i]: a negative index counts from the end of
the sequence; an index out of range after that adjustment raises IndexError. -/
def pyIndex (s : Bytes) (i : Int) : Except PyErr Nat :=
  let n : Int := s.length
  let j : Int := if i < 0 then i + n else i
  if 0 ≤ j ∧ j < n then .ok (s.getD j.toNat 0) else .error .indexError

/-- Clamp one bound of a Python slice data[a:b] to the valid range. -/
def pyBound (n : Nat) (i : Int) : Nat :=
  if i < 0 then (i + n).toNat else min i.toNat n

/-- Python slicing data[a:b] with step 1: bounds are adjusted for negative
values and silently clipped to the buffer, never raising. -/
def pySlice (s : Bytes) (a b : Int) : Bytes :=
  (s.drop (pyBound s.length a)).take (pyBound s.length b - pyBound s.length a)

/-- Little-endian 32-bit value of four bytes. -/
def le32 (b0 b1 b2 b3 : Nat) : Nat :=
  b0 + 256 * b1 + 65536 * b2 + 16777216 * b3

/-- Little-endian 32-bit value of the four bytes of s at offset off. -/
def le32At (s : Bytes) (off : Nat) : Nat :=
  le32 (s.getD off 0) (s.getD (off + 1) 0) (s.getD (off + 2) 0) (s.getD (off + 3) 0)

/-- struct.unpack("=I", s): requires exactly four bytes, else struct.error. -/
def unpackU32 (s : Bytes) : Except PyErr Nat :=
  match s with
  | [b0, b1, b2, b3] => .ok (le32 b0 b1 b2 b3)
  | _ => .error .structError

/-- The fixed-width byte-string field of s at offset off of length len,
as sliced by struct.unpack_from when the buffer is long enough. -/
def fieldBytes (s : Bytes) (off len : Nat) : Bytes :=
  (s.drop off).take len

/-- struct.unpack_from("<Ns", s, off): requires off + N bytes available,
else struct.error. -/
def unpackFromBytes (s : Bytes) (off size : Nat) : Except PyErr Bytes :=
  if off + size ≤ s.length then .ok (fieldBytes s off size) else .error .structError

/-- struct.unpack_from("<I", s, off): requires off + 4 bytes available,
else struct.error. -/
def unpackFromU32 (s : Bytes) (off : Nat) : Except PyErr Nat :=
  if off + 4 ≤ s.length then .ok (le32At s off) else .error .structError

/-- Python s.split("\x00")[0]: the prefix of s before the first null byte. -/
def splitNul (s : Bytes) : Bytes := s.takeWhile (fun b => b ≠ 0)

/-- Python s.replace("\x00", ""): s with every null byte removed. -/
def stripNul (s : Bytes) : Bytes := s.filter (fun b => b ≠ 0)

/-- The CONNECT_MODE dictionary; lookup of a missing key raises KeyError. -/
def CONNECT_MODE (mode : Nat) : Except PyErr String :=
  if mode = 1 then .ok "TCP"
  else if mode = 2 then .ok "HTTP"
  else if mode = 3 then .ok "HTTPS"
  else if mode = 4 then .ok "TCP and HTTP"
  else .error .keyError

/-- The normalized fields written by redleavesConfig.parse_config. -/
structure RLOut where
  server1 : Bytes
  server2 : Bytes
  server3 : Bytes
  port : Nat
  mode : Nat
  modeName : String
  id : Bytes
  mutex : Bytes
  injection : Bytes
  rc4key : Bytes
  deriving DecidableEq

/-- The normalized fields written by redleavesConfig.parse_config_himawari. -/
structure HimaOut where
  server1 : Bytes
  server2 : Bytes
  server3 : Bytes
  server4 : Bytes
  port : Nat
  unknown1 : Bytes
  unknown2 : Bytes
  unknown3 : Bytes
  sleep1 : Nat
  sleep2 : Nat
  mode : Nat
  id : Bytes
  mutex : Bytes
  sleep3 : Nat
  ua : Bytes
  key : Bytes
  deriving DecidableEq

/-- redleavesConfig.parse_config: the RedLeaves fixed-offset layout.  The
unpack_from calls run first in source order, then the fields are written with
their per-field trimming; the mode string comes from the CONNECT_MODE lookup
(raising KeyError when the mode value is not a key). -/
def parse_config (cfg_blob : Bytes) : Except PyErr RLOut :=
  (unpackFromBytes cfg_blob 0x0 64).bind fun server1 =>
  (unpackFromBytes cfg_blob 0x40 64).bind fun server2 =>
  (unpackFromBytes cfg_blob 0x80 64).bind fun server3 =>
  (unpackFromU32 cfg_blob 0xC0).bind fun port =>
  (unpackFromU32 cfg_blob 0x1D0).bind fun mode =>
  (unpackFromBytes cfg_blob 0x1E4 64).bind fun idRaw =>
  (unpackFromBytes cfg_blob 0x500 550).bind fun mutex =>
  (unpackFromBytes cfg_blob 0x726 104).bind fun injection =>
  (unpackFromBytes cfg_blob 0x82A 10).bind fun rc4key =>
  (CONNECT_MODE mode).bind fun modeName =>
  .ok { server1 := splitNul server1, server2 := splitNul server2,
        server3 := splitNul server3, port := port, mode := mode,
        modeName := modeName, id := splitNul idRaw, mutex := stripNul mutex,
        injection := stripNul injection, rc4key := splitNul rc4key }

/-- redleavesConfig.parse_config_himawari: the Himawari-family fixed-offset
layout.  Note the written UserAgent field uses split at the first null byte
(like the server/id/key fields), while mutex uses replace. -/
def parse_config_himawari (cfg_blob : Bytes) : Except PyErr HimaOut :=
  (unpackFromBytes cfg_blob 0x4 64).bind fun server1 =>
  (unpackFromBytes cfg_blob 0x44 64).bind fun server2 =>
  (unpackFromBytes cfg_blob 0x84 64).bind fun server3 =>
  (unpackFromBytes cfg_blob 0xC4 64).bind fun server4 =>
  (unpackFromU32 cfg_blob 0x104).bind fun port =>
  (unpackFromBytes cfg_blob 0x10C 64).bind fun unknown1 =>
  (unpackFromBytes cfg_blob 0x14C 64).bind fun unknown2 =>
  (unpackFromBytes cfg_blob 0x18C 64).bind fun unknown3 =>
  (unpackFromU32 cfg_blob 0x1D0).bind fun sleep1 =>
  (unpackFromU32 cfg_blob 0x1D4).bind fun sleep2 =>
  (unpackFromU32 cfg_blob 0x1D8).bind fun mode =>
  (unpackFromBytes cfg_blob 0x1E0 64).bind fun idRaw =>
  (unpackFromBytes cfg_blob 0x224 62).bind fun mutex =>
  (unpackFromU32 cfg_blob 0x220).bind fun sleep3 =>
  (unpackFromBytes cfg_blob 0x262 260).bind fun ua =>
  (unpackFromBytes cfg_blob 0x366 10).bind fun key =>
  .ok { server1 := splitNul server1, server2 := splitNul server2,
        server3 := splitNul server3, server4 := splitNul server4,
        port := port, unknown1 := unknown1, unknown2 := unknown2,
        unknown3 := unknown3, sleep1 := sleep1, sleep2 := sleep2,
        mode := mode, id := splitNul idRaw, mutex := stripNul mutex,
        sleep3 := sleep3, ua := splitNul ua, key := splitNul key }

/-- The five malware families detected by the yara rule set. -/
inductive Family where
  | RedLeaves
  | Himawari
  | Lavender
  | Armadill
  | Zark20rk
  deriving DecidableEq

/-- The per-family secondary byte pattern of CONF_PATTERNS (the compiled
regexes are plain 6-byte literals, so re.search is first-substring search).
Himawari, Lavender and Armadill share one pattern string. -/
def secondaryPattern (fam : Family) : Bytes :=
  match fam with
  | .RedLeaves => [0x68, 0x88, 0x13, 0x00, 0x00, 0xFF]
  | .Zark20rk => [0x68, 0x70, 0x03, 0x00, 0x00, 0x8D]
  | _ => [0x68, 0x70, 0x03, 0x00, 0x00, 0xBF]

/-- First offset at which pat occurs as a contiguous substring of data
(re.search on a literal byte pattern). -/
def findSub (data pat : Bytes) : Option Nat :=
  (List.range (data.length + 1)).find? (fun i => pat.isPrefixOf (data.drop i))

/-- patternCheck as read through loadp.m_conf: the CONF_PATTERNS loop only
assigns m_conf on the matching name or on a later non-matching iteration, so
for every family except zark20rk a failed search leaves None via a later
iteration, while zark20rk (the last table entry) leaves m_conf unset and the
read of loadp.m_conf raises AttributeError. -/
def patternCheck (fam : Family) (data : Bytes) : Except PyErr (Option Nat) :=
  match fam with
  | .Zark20rk =>
    match findSub data (secondaryPattern .Zark20rk) with
    | some m => .ok (some m)
    | none => .error .attributeError
  | _ => .ok (findSub data (secondaryPattern fam))

/-- The three anchor opcode bytes of the RedLeaves backward scan
(0xC7 mov r/m32, imm32; 0xBE / 0xBF mov r32, imm32). -/
def isAnchor (b : Nat) : Bool :=
  b == 0xC7 || b == 0xBE || b == 0xBF

/-- One-step-at-a-time backward scan loop (lines 210 to 211): decrement the
offset until data[offset] is one of the anchor bytes; the fuel argument only
bounds the recursion and is chosen in scanBack so that it can never run out
before the indexing itself raises IndexError. -/
def scanBackAux (data : Bytes) : Nat → Int → Except PyErr Int
  | 0, _ => .error .indexError
  | fuel + 1, oc =>
    (pyIndex data oc).bind fun b =>
      if isAnchor b then .ok oc else scanBackAux data fuel (oc - 1)

/-- The RedLeaves backward anchor scan starting at position oc.  With Python
semantics the loop keeps reading at negative indices (which wrap to the end
of the buffer) and raises IndexError once the index drops below -len(data);
fuel oc + len + 2 is exactly the longest possible such descent. -/
def scanBack (data : Bytes) (oc : Int) : Except PyErr Int :=
  scanBackAux data (oc + data.length + 2).toNat oc

/-- Lines 214 to 215: if the anchor byte is 0xC7 and the following byte is
neither ModRM 0x85 nor 0x45, step the position back 6 bytes. -/
def anchorAdjust (data : Bytes) (p : Int) : Except PyErr Int :=
  (pyIndex data p).bind fun b0 =>
    if b0 = 0xC7 then
      (pyIndex data (p + 1)).bind fun b1 =>
        if b1 ≠ 0x85 ∧ b1 ≠ 0x45 then .ok (p - 6) else .ok p
    else .ok p

/-- Lines 218 to 223: decode the 32-bit literal at a delta from the final
scan position chosen by the dispatch: +3 for 0xC7 with a non-0x85 following
byte, +6 for 0xC7 followed by 0x85, +1 otherwise. -/
def decodeAtAnchor (data : Bytes) (q : Int) : Except PyErr Nat :=
  (pyIndex data q).bind fun b0 =>
    if b0 = 0xC7 then
      (pyIndex data (q + 1)).bind fun b1 =>
        if b1 ≠ 0x85 then unpackU32 (pySlice data (q + 3) (q + 7))
        else unpackU32 (pySlice data (q + 6) (q + 10))
    else unpackU32 (pySlice data (q + 1) (q + 5))

/-- Lines 209 to 223: the full RedLeaves pointer resolution.  The isAnchor
re-test after the loop is the (unreachable) soft-skip guard of lines 212 to
213, modelled by the ok none outcome. -/
def redleavesPointer (data : Bytes) (m : Nat) : Except PyErr (Option Nat) :=
  (scanBack data ((m : Int) - 1)).bind fun p =>
  (pyIndex data p).bind fun b =>
  if isAnchor b then
    (anchorAdjust data p).bind fun q =>
    (decodeAtAnchor data q).bind fun addr =>
    .ok (some addr)
  else .ok none

/-- Lines 236 to 243: the Himawari-family pointer is the 32-bit
little-endian literal at secondary-pattern offset + 6 (one extra + 6 for
zark20rk), read with struct.unpack on a Python slice. -/
def himawariPointer (data : Bytes) (m : Nat) (zark : Bool) : Except PyErr Nat :=
  let p : Nat := m + 6 + (if zark then 6 else 0)
  unpackU32 (pySlice data (p : Int) ((p + 4 : Nat) : Int))

/-- Lines 226 to 234 / 246 to 255 shared blob logic: reject a pointer below
the region base, slice blob_len bytes at the region-relative offset with
Python clipping, and hand the slice on only when it is non-empty. -/
def locateBlob (start addr blobLen : Nat) (data : Bytes) : Option Bytes :=
  if addr < start then none
  else
    let rel := addr - start
    let cfg := pySlice data (rel : Int) ((rel + blobLen : Nat) : Int)
    if 0 < cfg.length then some cfg else none

/-- Outcome of one hit of the redleavesConfig.render_text loop. -/
inductive HitResult where
  | skip
  | blobEmpty
  | redleaves (cfg : RLOut)
  | himawari (cfg : HimaOut)
  deriving DecidableEq

/-- The RedLeaves branch of the render_text loop body (lines 206 to 234). -/
def redleavesHit (data : Bytes) (start : Nat) (m : Nat) : Except PyErr HitResult :=
  (redleavesPointer data m).bind fun res =>
    match res with
    | none => .ok .skip
    | some addr =>
      if addr < start then .ok .skip
      else
        match locateBlob start addr 2100 data with
        | some cfg => (parse_config cfg).bind fun out => .ok (.redleaves out)
        | none => .ok .blobEmpty

/-- The Himawari-family branch of the render_text loop body
(lines 236 to 255). -/
def himawariHit (data : Bytes) (start : Nat) (m : Nat) (zark : Bool) :
    Except PyErr HitResult :=
  (himawariPointer data m zark).bind fun addr =>
    if addr < start then .ok .skip
    else
      match locateBlob start addr 880 data with
      | some cfg => (parse_config_himawari cfg).bind fun out => .ok (.himawari out)
      | none => .ok .blobEmpty

/-- One iteration of the redleavesConfig.render_text loop, given the family
label, the VAD base and the fetched byte window. -/
def render_text_hit (fam : Family) (start : Nat) (data : Bytes) :
    Except PyErr HitResult :=
  (patternCheck fam data).bind fun mc =>
    match mc with
    | none => .ok .skip
    | some m =>
      match fam with
      | .RedLeaves => redleavesHit data start m
      | .Zark20rk => himawariHit data start m true
      | _ => himawariHit data start m false

/-- The redleavesConfig.render_text loop over all hits: one unhandled Python
exception in a hit propagates and ends the whole rendering. -/
def render_text : List (Family × Nat × Bytes) → Except PyErr (List HitResult)
  | [] => .ok []
  | (fam, start, data) :: rest =>
    (render_text_hit fam start data).bind fun r =>
    (render_text rest).bind fun rs =>
    .ok (r :: rs)

/-- A VAD node as read by the plugin: vad.Start and vad.End, where End is
the last address of the region (get_vad_end returns End + 1 to size the
fetched byte window, so the half-open region is [Start, End + 1)). -/
structure Vad where
  Start : Nat
  End : Nat
  deriving DecidableEq

/-- redleavesScan.get_vad_base: first VAD with Start <= address < End. -/
def get_vad_base : List Vad → Nat → Option Nat
  | [], _ => none
  | v :: rest, address =>
    if address ≥ v.Start ∧ address < v.End then some v.Start
    else get_vad_base rest address

/-- vad_ck.get_vad_end: End + 1 of the VAD whose Start equals the address. -/
def get_vad_end : List Vad → Nat → Option Nat
  | [], _ => none
  | v :: rest, address =>
    if address = v.Start then some (v.End + 1)
    else get_vad_end rest address

/-- Spec-side region membership, following the MemoryRegion data model of the
spec: half-open [base, end) with base = Start and end = End + 1, the end
boundary get_vad_end uses to size the byte window. -/
def specRegionContains (v : Vad) (a : Nat) : Prop :=
  v.Start ≤ a ∧ a < v.End + 1

instance (v : Vad) (a : Nat) : Decidable (specRegionContains v a) :=
  inferInstanceAs (Decidable (_ ∧ _))

theorem exbind_ok {α β : Type} (a : α) (f : α → Except PyErr β) :
    (Except.ok a : Except PyErr α).bind f = f a := rfl

theorem exbind_err {α β : Type} (e : PyErr) (f : α → Except PyErr β) :
    (Except.error e : Except PyErr α).bind f = .error e := rfl

theorem pyIndex_nat (s : Bytes) (a : Nat) (h : a < s.length) :
    pyIndex s (a : Int) = .ok (s.getD a 0) := by
  have h1 : ¬((a : Int) < 0) := by omega
  have h2 : (0 : Int) ≤ (a : Int) := by omega
  have h3 : (a : Int) < (s.length : Int) := by omega
  simp [pyIndex, h1, h2, h3]

theorem pyIndex_err_ge (s : Bytes) (a : Nat) (h : s.length ≤ a) :
    pyIndex s (a : Int) = .error .indexError := by
  have h1 : ¬((a : Int) < 0) := by omega
  have h3 : ¬((a : Int) < (s.length : Int)) := by omega
  simp [pyIndex, h1, h3]

theorem pyBound_natCast (n a : Nat) : pyBound n (a : Int) = min a n := by
  simp [pyBound]

theorem pySlice_natCast_len (s : Bytes) (a b : Nat) :
    (pySlice s (a : Int) (b : Int)).length = min b s.length - min a s.length := by
  simp only [pySlice, pyBound_natCast, List.length_take, List.length_drop]
  omega

theorem drop_take_four (s : Bytes) (a : Nat) (h : a + 4 ≤ s.length) :
    (s.drop a).take 4 =
      [s.getD a 0, s.getD (a + 1) 0, s.getD (a + 2) 0, s.getD (a + 3) 0] := by
  induction a generalizing s with
  | zero =>
    match s, h with
    | b0 :: b1 :: b2 :: b3 :: t, _ => rfl
  | succ a ih =>
    match s, h with
    | hd :: tl, h =>
      have := ih tl (by simpa using h)
      simpa [List.getD_cons_succ] using this

theorem pySlice_nat_four (s : Bytes) (a : Nat) (h : a + 4 ≤ s.length) :
    pySlice s (a : Int) ((a : Int) + 4) =
      [s.getD a 0, s.getD (a + 1) 0, s.getD (a + 2) 0, s.getD (a + 3) 0] := by
  have hc : ((a : Int) + 4) = ((a + 4 : Nat) : Int) := by push_cast; ring
  rw [pySlice, hc, pyBound_natCast, pyBound_natCast]
  have l1 : min (a + 4) s.length = a + 4 := Nat.min_eq_left h
  have l2 : min a s.length = a := Nat.min_eq_left (by omega)
  rw [l1, l2, show a + 4 - a = 4 by omega, drop_take_four s a h]

theorem unpackU32_four (b0 b1 b2 b3 : Nat) :
    unpackU32 [b0, b1, b2, b3] = .ok (le32 b0 b1 b2 b3) := rfl

theorem unpackU32_err (s : Bytes) (h : s.length ≠ 4) :
    unpackU32 s = .error .structError := by
  match s, h with
  | [], _ => rfl
  | [_], _ => rfl
  | [_, _], _ => rfl
  | [_, _, _], _ => rfl
  | [_, _, _, _], h => exact absurd rfl h
  | _ :: _ :: _ :: _ :: _ :: _, _ => rfl

theorem unpackFromBytes_ok (s : Bytes) (off size : Nat) (h : off + size ≤ s.length) :
    unpackFromBytes s off size = .ok (fieldBytes s off size) := by
  rw [unpackFromBytes, if_pos h]

theorem unpackFromBytes_err (s : Bytes) (off size : Nat) (h : s.length < off + size) :
    unpackFromBytes s off size = .error .structError := by
  rw [unpackFromBytes, if_neg (by omega)]

theorem unpackFromU32_ok (s : Bytes) (off : Nat) (h : off + 4 ≤ s.length) :
    unpackFromU32 s off = .ok (le32At s off) := by
  rw [unpackFromU32, if_pos h]

theorem unpackFromU32_err (s : Bytes) (off : Nat) (h : s.length < off + 4) :
    unpackFromU32 s off = .error .structError := by
  rw [unpackFromU32, if_neg (by omega)]

theorem scanBackAux_ok_anchor (data : Bytes) :
    ∀ (fuel : Nat) (oc p : Int), scanBackAux data fuel oc = .ok p →
      ∃ b, pyIndex data p = .ok b ∧ isAnchor b = true := by
  intro fuel
  induction fuel with
  | zero => intro oc p h; simp only [scanBackAux] at h; cases h
  | succ n ih =>
    intro oc p h
    simp only [scanBackAux] at h
    cases hpi : pyIndex data oc with
    | error e => rw [hpi, exbind_err] at h; cases h
    | ok b =>
      rw [hpi] at h
      simp only [exbind_ok] at h
      by_cases hb : isAnchor b = true
      · rw [if_pos hb] at h
        cases h
        exact ⟨b, hpi, hb⟩
      · rw [if_neg hb] at h
        exact ih (oc - 1) p h

theorem getD_replicate_lt (n i a d : Nat) (h : i < n) :
    (List.replicate n a).getD i d = a := by
  induction n generalizing i with
  | zero => omega
  | succ n ih =>
    cases i with
    | zero => rfl
    | succ i => simpa [List.replicate_succ] using ih i (by omega)

theorem drop_append_ge (l1 l2 : Bytes) (k : Nat) (h : l1.length ≤ k) :
    (l1 ++ l2).drop k = l2.drop (k - l1.length) := by
  rw [List.drop_append_eq_append_drop, List.drop_eq_nil_of_le h, List.nil_append]

theorem getD_append_ge (l1 l2 : Bytes) (k d : Nat) (h : l1.length ≤ k) :
    (l1 ++ l2).getD k d = l2.getD (k - l1.length) d :=
  List.getD_append_right l1 l2 d k h

theorem splitNul_replicate_zero (n : Nat) : splitNul (List.replicate n 0) = [] := by
  rw [splitNul, List.takeWhile_replicate]
  simp

theorem stripNul_replicate_zero (n : Nat) : stripNul (List.replicate n 0) = [] := by
  rw [stripNul, List.filter_replicate]
  simp

/-- If the secondary pattern sits at the very front of the window, re.search
reports offset zero. -/
theorem findSub_zero (data pat : Bytes) (h : pat.isPrefixOf data = true) :
    findSub data pat = some 0 := by
  rw [findSub, List.range_succ_eq_map, List.find?_cons_of_pos]
  simpa using h

/-- The spec-side RedLeaves record: every field read at its documented offset
and width, servers / id / key right-trimmed at the first null byte, mutex and
injection with all null bytes stripped (section 6 offset table of the spec). -/
def rlSpecRecord (cfg : Bytes) (nm : String) : RLOut :=
  { server1 := splitNul (fieldBytes cfg 0x0 64),
    server2 := splitNul (fieldBytes cfg 0x40 64),
    server3 := splitNul (fieldBytes cfg 0x80 64),
    port := le32At cfg 0xC0,
    mode := le32At cfg 0x1D0,
    modeName := nm,
    id := splitNul (fieldBytes cfg 0x1E4 64),
    mutex := stripNul (fieldBytes cfg 0x500 550),
    injection := stripNul (fieldBytes cfg 0x726 104),
    rc4key := splitNul (fieldBytes cfg 0x82A 10) }

/-- The spec-side Himawari-family record at the documented offsets.  The
user-agent field is right-trimmed at the first null byte, which is what the
code does (the spec instead claims all nulls are stripped for it). -/
def himSpecRecord (cfg : Bytes) : HimaOut :=
  { server1 := splitNul (fieldBytes cfg 0x4 64),
    server2 := splitNul (fieldBytes cfg 0x44 64),
    server3 := splitNul (fieldBytes cfg 0x84 64),
    server4 := splitNul (fieldBytes cfg 0xC4 64),
    port := le32At cfg 0x104,
    unknown1 := fieldBytes cfg 0x10C 64,
    unknown2 := fieldBytes cfg 0x14C 64,
    unknown3 := fieldBytes cfg 0x18C 64,
    sleep1 := le32At cfg 0x1D0,
    sleep2 := le32At cfg 0x1D4,
    mode := le32At cfg 0x1D8,
    id := splitNul (fieldBytes cfg 0x1E0 64),
    mutex := stripNul (fieldBytes cfg 0x224 62),
    sleep3 := le32At cfg 0x220,
    ua := splitNul (fieldBytes cfg 0x262 260),
    key := splitNul (fieldBytes cfg 0x366 10) }

/-- Closed form of parse_config: the unpack stage succeeds exactly on blobs of
at least the full 2100-byte layout, and the result then only depends on the
CONNECT_MODE lookup of the mode value. -/
theorem parse_config_eq (cfg : Bytes) :
    parse_config cfg =
      if 2100 ≤ cfg.length then
        match CONNECT_MODE (le32At cfg 0x1D0) with
        | .ok nm => .ok (rlSpecRecord cfg nm)
        | .error e => .error e
      else .error .structError := by
  by_cases h : 2100 ≤ cfg.length
  · rw [if_pos h]
    simp only [parse_config,
      unpackFromBytes_ok cfg 0x0 64 (by omega),
      unpackFromBytes_ok cfg 0x40 64 (by omega),
      unpackFromBytes_ok cfg 0x80 64 (by omega),
      unpackFromU32_ok cfg 0xC0 (by omega),
      unpackFromU32_ok cfg 0x1D0 (by omega),
      unpackFromBytes_ok cfg 0x1E4 64 (by omega),
      unpackFromBytes_ok cfg 0x500 550 (by omega),
      unpackFromBytes_ok cfg 0x726 104 (by omega),
      unpackFromBytes_ok cfg 0x82A 10 (by omega),
      exbind_ok]
    cases hm : CONNECT_MODE (le32At cfg 0x1D0) with
    | ok nm => rw [exbind_ok]; rfl
    | error e => rw [exbind_err]
  · rw [if_neg h]
    rcases Nat.lt_or_ge cfg.length 64 with h1 | h1
    · simp only [parse_config, unpackFromBytes_err cfg 0x0 64 (by omega), exbind_err]
    rcases Nat.lt_or_ge cfg.length 128 with h2 | h2
    · simp only [parse_config, unpackFromBytes_ok cfg 0x0 64 (by omega),
        unpackFromBytes_err cfg 0x40 64 (by omega), exbind_ok, exbind_err]
    rcases Nat.lt_or_ge cfg.length 192 with h3 | h3
    · simp only [parse_config, unpackFromBytes_ok cfg 0x0 64 (by omega),
        unpackFromBytes_ok cfg 0x40 64 (by omega),
        unpackFromBytes_err cfg 0x80 64 (by omega), exbind_ok, exbind_err]
    rcases Nat.lt_or_ge cfg.length 196 with h4 | h4
    · simp only [parse_config, unpackFromBytes_ok cfg 0x0 64 (by omega),
        unpackFromBytes_ok cfg 0x40 64 (by omega),
        unpackFromBytes_ok cfg 0x80 64 (by omega),
        unpackFromU32_err cfg 0xC0 (by omega), exbind_ok, exbind_err]
    rcases Nat.lt_or_ge cfg.length 468 with h5 | h5
    · simp only [parse_config, unpackFromBytes_ok cfg 0x0 64 (by omega),
        unpackFromBytes_ok cfg 0x40 64 (by omega),
        unpackFromBytes_ok cfg 0x80 64 (by omega),
        unpackFromU32_ok cfg 0xC0 (by omega),
        unpackFromU32_err cfg 0x1D0 (by omega), exbind_ok, exbind_err]
    rcases Nat.lt_or_ge cfg.length 548 with h6 | h6
    · simp only [parse_config, unpackFromBytes_ok cfg 0x0 64 (by omega),
        unpackFromBytes_ok cfg 0x40 64 (by omega),
        unpackFromBytes_ok cfg 0x80 64 (by omega),
        unpackFromU32_ok cfg 0xC0 (by omega),
        unpackFromU32_ok cfg 0x1D0 (by omega),
        unpackFromBytes_err cfg 0x1E4 64 (by omega), exbind_ok, exbind_err]
    rcases Nat.lt_or_ge cfg.length 1830 with h7 | h7
    · simp only [parse_config, unpackFromBytes_ok cfg 0x0 64 (by omega),
        unpackFromBytes_ok cfg 0x40 64 (by omega),
        unpackFromBytes_ok cfg 0x80 64 (by omega),
        unpackFromU32_ok cfg 0xC0 (by omega),
        unpackFromU32_ok cfg 0x1D0 (by omega),
        unpackFromBytes_ok cfg 0x1E4 64 (by omega),
        unpackFromBytes_err cfg 0x500 550 (by omega), exbind_ok, exbind_err]
    rcases Nat.lt_or_ge cfg.length 1934 with h8 | h8
    · simp only [parse_config, unpackFromBytes_ok cfg 0x0 64 (by omega),
        unpackFromBytes_ok cfg 0x40 64 (by omega),
        unpackFromBytes_ok cfg 0x80 64 (by omega),
        unpackFromU32_ok cfg 0xC0 (by omega),
        unpackFromU32_ok cfg 0x1D0 (by omega),
        unpackFromBytes_ok cfg 0x1E4 64 (by omega),
        unpackFromBytes_ok cfg 0x500 550 (by omega),
        unpackFromBytes_err cfg 0x726 104 (by omega), exbind_ok, exbind_err]
    rcases Nat.lt_or_ge cfg.length 2100 with h9 | h9
    · simp only [parse_config, unpackFromBytes_ok cfg 0x0 64 (by omega),
        unpackFromBytes_ok cfg 0x40 64 (by omega),
        unpackFromBytes_ok cfg 0x80 64 (by omega),
        unpackFromU32_ok cfg 0xC0 (by omega),
        unpackFromU32_ok cfg 0x1D0 (by omega),
        unpackFromBytes_ok cfg 0x1E4 64 (by omega),
        unpackFromBytes_ok cfg 0x500 550 (by omega),
        unpackFromBytes_ok cfg 0x726 104 (by omega),
        unpackFromBytes_err cfg 0x82A 10 (by omega), exbind_ok, exbind_err]
    omega

/-- Closed form of parse_config_himawari: the decode succeeds exactly on
blobs of at least the full 880-byte layout and never consults any
enumeration. -/
theorem parse_config_himawari_eq (cfg : Bytes) :
    parse_config_himawari cfg =
      if 880 ≤ cfg.length then .ok (himSpecRecord cfg) else .error .structError := by
  by_cases h : 880 ≤ cfg.length
  · rw [if_pos h]
    simp only [parse_config_himawari,
      unpackFromBytes_ok cfg 0x4 64 (by omega),
      unpackFromBytes_ok cfg 0x44 64 (by omega),
      unpackFromBytes_ok cfg 0x84 64 (by omega),
      unpackFromBytes_ok cfg 0xC4 64 (by omega),
      unpackFromU32_ok cfg 0x104 (by omega),
      unpackFromBytes_ok cfg 0x10C 64 (by omega),
      unpackFromBytes_ok cfg 0x14C 64 (by omega),
      unpackFromBytes_ok cfg 0x18C 64 (by omega),
      unpackFromU32_ok cfg 0x1D0 (by omega),
      unpackFromU32_ok cfg 0x1D4 (by omega),
      unpackFromU32_ok cfg 0x1D8 (by omega),
      unpackFromBytes_ok cfg 0x1E0 64 (by omega),
      unpackFromBytes_ok cfg 0x224 62 (by omega),
      unpackFromU32_ok cfg 0x220 (by omega),
      unpackFromBytes_ok cfg 0x262 260 (by omega),
      unpackFromBytes_ok cfg 0x366 10 (by omega),
      exbind_ok]
    rfl
  · rw [if_neg h]
    rcases Nat.lt_or_ge cfg.length 68 with h1 | h1
    · simp only [parse_config_himawari,
        unpackFromBytes_err cfg 0x4 64 (by omega), exbind_ok, exbind_err]
    rcases Nat.lt_or_ge cfg.length 132 with h2 | h2
    · simp only [parse_config_himawari,
        unpackFromBytes_ok cfg 0x4 64 (by omega),
        unpackFromBytes_err cfg 0x44 64 (by omega), exbind_ok, exbind_err]
    rcases Nat.lt_or_ge cfg.length 196 with h3 | h3
    · simp only [parse_config_himawari,
        unpackFromBytes_ok cfg 0x4 64 (by omega),
        unpackFromBytes_ok cfg 0x44 64 (by omega),
        unpackFromBytes_err cfg 0x84 64 (by omega), exbind_ok, exbind_err]
    rcases Nat.lt_or_ge cfg.length 260 with h4 | h4
    · simp only [parse_config_himawari,
        unpackFromBytes_ok cfg 0x4 64 (by omega),
        unpackFromBytes_ok cfg 0x44 64 (by omega),
        unpackFromBytes_ok cfg 0x84 64 (by omega),
        unpackFromBytes_err cfg 0xC4 64 (by omega), exbind_ok, exbind_err]
    rcases Nat.lt_or_ge cfg.length 264 with h5 | h5
    · simp only [parse_config_himawari,
        unpackFromBytes_ok cfg 0x4 64 (by omega),
        unpackFromBytes_ok cfg 0x44 64 (by omega),
        unpackFromBytes_ok cfg 0x84 64 (by omega),
        unpackFromBytes_ok cfg 0xC4 64 (by omega),
        unpackFromU32_err cfg 0x104 (by omega), exbind_ok, exbind_err]
    rcases Nat.lt_or_ge cfg.length 332 with h6 | h6
    · simp only [parse_config_himawari,
        unpackFromBytes_ok cfg 0x4 64 (by omega),
        unpackFromBytes_ok cfg 0x44 64 (by omega),
        unpackFromBytes_ok cfg 0x84 64 (by omega),
        unpackFromBytes_ok cfg 0xC4 64 (by omega),
        unpackFromU32_ok cfg 0x104 (by omega),
        unpackFromBytes_err cfg 0x10C 64 (by omega), exbind_ok, exbind_err]
    rcases Nat.lt_or_ge cfg.length 396 with h7 | h7
    · simp only [parse_config_himawari,
        unpackFromBytes_ok cfg 0x4 64 (by omega),
        unpackFromBytes_ok cfg 0x44 64 (by omega),
        unpackFromBytes_ok cfg 0x84 64 (by omega),
        unpackFromBytes_ok cfg 0xC4 64 (by omega),
        unpackFromU32_ok cfg 0x104 (by omega),
        unpackFromBytes_ok cfg 0x10C 64 (by omega),
        unpackFromBytes_err cfg 0x14C 64 (by omega), exbind_ok, exbind_err]
    rcases Nat.lt_or_ge cfg.length 460 with h8 | h8
    · simp only [parse_config_himawari,
        unpackFromBytes_ok cfg 0x4 64 (by omega),
        unpackFromBytes_ok cfg 0x44 64 (by omega),
        unpackFromBytes_ok cfg 0x84 64 (by omega),
        unpackFromBytes_ok cfg 0xC4 64 (by omega),
        unpackFromU32_ok cfg 0x104 (by omega),
        unpackFromBytes_ok cfg 0x10C 64 (by omega),
        unpackFromBytes_ok cfg 0x14C 64 (by omega),
        unpackFromBytes_err cfg 0x18C 64 (by omega), exbind_ok, exbind_err]
    rcases Nat.lt_or_ge cfg.length 468 with h9 | h9
    · simp only [parse_config_himawari,
        unpackFromBytes_ok cfg 0x4 64 (by omega),
        unpackFromBytes_ok cfg 0x44 64 (by omega),
        unpackFromBytes_ok cfg 0x84 64 (by omega),
        unpackFromBytes_ok cfg 0xC4 64 (by omega),
        unpackFromU32_ok cfg 0x104 (by omega),
        unpackFromBytes_ok cfg 0x10C 64 (by omega),
        unpackFromBytes_ok cfg 0x14C 64 (by omega),
        unpackFromBytes_ok cfg 0x18C 64 (by omega),
        unpackFromU32_err cfg 0x1D0 (by omega), exbind_ok, exbind_err]
    rcases Nat.lt_or_ge cfg.length 472 with h10 | h10
    · simp only [parse_config_himawari,
        unpackFromBytes_ok cfg 0x4 64 (by omega),
        unpackFromBytes_ok cfg 0x44 64 (by omega),
        unpackFromBytes_ok cfg 0x84 64 (by omega),
        unpackFromBytes_ok cfg 0xC4 64 (by omega),
        unpackFromU32_ok cfg 0x104 (by omega),
        unpackFromBytes_ok cfg 0x10C 64 (by omega),
        unpackFromBytes_ok cfg 0x14C 64 (by omega),
        unpackFromBytes_ok cfg 0x18C 64 (by omega),
        unpackFromU32_ok cfg 0x1D0 (by omega),
        unpackFromU32_err cfg 0x1D4 (by omega), exbind_ok, exbind_err]
    rcases Nat.lt_or_ge cfg.length 476 with h11 | h11
    · simp only [parse_config_himawari,
        unpackFromBytes_ok cfg 0x4 64 (by omega),
        unpackFromBytes_ok cfg 0x44 64 (by omega),
        unpackFromBytes_ok cfg 0x84 64 (by omega),
        unpackFromBytes_ok cfg 0xC4 64 (by omega),
        unpackFromU32_ok cfg 0x104 (by omega),
        unpackFromBytes_ok cfg 0x10C 64 (by omega),
        unpackFromBytes_ok cfg 0x14C 64 (by omega),
        unpackFromBytes_ok cfg 0x18C 64 (by omega),
        unpackFromU32_ok cfg 0x1D0 (by omega),
        unpackFromU32_ok cfg 0x1D4 (by omega),
        unpackFromU32_err cfg 0x1D8 (by omega), exbind_ok, exbind_err]
    rcases Nat.lt_or_ge cfg.length 544 with h12 | h12
    · simp only [parse_config_himawari,
        unpackFromBytes_ok cfg 0x4 64 (by omega),
        unpackFromBytes_ok cfg 0x44 64 (by omega),
        unpackFromBytes_ok cfg 0x84 64 (by omega),
        unpackFromBytes_ok cfg 0xC4 64 (by omega),
        unpackFromU32_ok cfg 0x104 (by omega),
        unpackFromBytes_ok cfg 0x10C 64 (by omega),
        unpackFromBytes_ok cfg 0x14C 64 (by omega),
        unpackFromBytes_ok cfg 0x18C 64 (by omega),
        unpackFromU32_ok cfg 0x1D0 (by omega),
        unpackFromU32_ok cfg 0x1D4 (by omega),
        unpackFromU32_ok cfg 0x1D8 (by omega),
        unpackFromBytes_err cfg 0x1E0 64 (by omega), exbind_ok, exbind_err]
    rcases Nat.lt_or_ge cfg.length 610 with h13 | h13
    · simp only [parse_config_himawari,
        unpackFromBytes_ok cfg 0x4 64 (by omega),
        unpackFromBytes_ok cfg 0x44 64 (by omega),
        unpackFromBytes_ok cfg 0x84 64 (by omega),
        unpackFromBytes_ok cfg 0xC4 64 (by omega),
        unpackFromU32_ok cfg 0x104 (by omega),
        unpackFromBytes_ok cfg 0x10C 64 (by omega),
        unpackFromBytes_ok cfg 0x14C 64 (by omega),
        unpackFromBytes_ok cfg 0x18C 64 (by omega),
        unpackFromU32_ok cfg 0x1D0 (by omega),
        unpackFromU32_ok cfg 0x1D4 (by omega),
        unpackFromU32_ok cfg 0x1D8 (by omega),
        unpackFromBytes_ok cfg 0x1E0 64 (by omega),
        unpackFromBytes_err cfg 0x224 62 (by omega), exbind_ok, exbind_err]
    rcases Nat.lt_or_ge cfg.length 870 with h14 | h14
    · simp only [parse_config_himawari,
        unpackFromBytes_ok cfg 0x4 64 (by omega),
        unpackFromBytes_ok cfg 0x44 64 (by omega),
        unpackFromBytes_ok cfg 0x84 64 (by omega),
        unpackFromBytes_ok cfg 0xC4 64 (by omega),
        unpackFromU32_ok cfg 0x104 (by omega),
        unpackFromBytes_ok cfg 0x10C 64 (by omega),
        unpackFromBytes_ok cfg 0x14C 64 (by omega),
        unpackFromBytes_ok cfg 0x18C 64 (by omega),
        unpackFromU32_ok cfg 0x1D0 (by omega),
        unpackFromU32_ok cfg 0x1D4 (by omega),
        unpackFromU32_ok cfg 0x1D8 (by omega),
        unpackFromBytes_ok cfg 0x1E0 64 (by omega),
        unpackFromBytes_ok cfg 0x224 62 (by omega),
        unpackFromU32_ok cfg 0x220 (by omega),
        unpackFromBytes_err cfg 0x262 260 (by omega), exbind_ok, exbind_err]
    rcases Nat.lt_or_ge cfg.length 880 with h15 | h15
    · simp only [parse_config_himawari,
        unpackFromBytes_ok cfg 0x4 64 (by omega),
        unpackFromBytes_ok cfg 0x44 64 (by omega),
        unpackFromBytes_ok cfg 0x84 64 (by omega),
        unpackFromBytes_ok cfg 0xC4 64 (by omega),
        unpackFromU32_ok cfg 0x104 (by omega),
        unpackFromBytes_ok cfg 0x10C 64 (by omega),
        unpackFromBytes_ok cfg 0x14C 64 (by omega),
        unpackFromBytes_ok cfg 0x18C 64 (by omega),
        unpackFromU32_ok cfg 0x1D0 (by omega),
        unpackFromU32_ok cfg 0x1D4 (by omega),
        unpackFromU32_ok cfg 0x1D8 (by omega),
        unpackFromBytes_ok cfg 0x1E0 64 (by omega),
        unpackFromBytes_ok cfg 0x224 62 (by omega),
        unpackFromU32_ok cfg 0x220 (by omega),
        unpackFromBytes_ok cfg 0x262 260 (by omega),
        unpackFromBytes_err cfg 0x366 10 (by omega), exbind_ok, exbind_err]
    omega

/-- Claim C2 (code bug): on a RedLeaves hit whose byte window contains no
anchor byte at all before the secondary pattern, the backward scan does not
abandon the hit softly: with Python negative indexing it wraps past the
start of the buffer, rescans from the end, and raises IndexError once the
index drops below -len(data).  The in-code guard that would skip the hit is
unreachable.  Here the window is 00 68 88 13 00 00 FF (pattern at offset 1,
no C7/BE/BF byte anywhere). -/
theorem claim_C2_bug :
    render_text_hit .RedLeaves 0 [0x00, 0x68, 0x88, 0x13, 0x00, 0x00, 0xFF] =
      .error .indexError := by decide

/-- Claim C1 (counterexample): a Himawari hit whose window is exactly the
6-byte secondary pattern makes the fixed-offset pointer read fall fully
outside the window; the claim says this yields no pointer and a
blob-unavailable report without a crash, but the per-hit pipeline instead
raises struct.error (the slice handed to unpack is empty). -/
theorem claim_C1_counterexample :
    render_text_hit .Himawari 0 [0x68, 0x70, 0x03, 0x00, 0x00, 0xBF] =
      .error .structError := by decide

/-- Claim C1 (amended): when reading the 4-byte little-endian pointer
literal would exceed the byte window, no pointer is produced, but the
failure is an uncaught Python exception (struct.error from the short slice,
or IndexError from the anchor-byte read at the buffer end), not a soft
blob-unavailable report: the Himawari-family read fails whenever the window
ends before pattern offset + 10 (+ 16 for zark20rk), and the RedLeaves
anchored read fails whenever the window ends within 4 bytes of the anchor. -/
theorem claim_C1_amended :
    (∀ (data : Bytes) (m : Nat), data.length < m + 10 →
      himawariPointer data m false = .error .structError)
  ∧ (∀ (data : Bytes) (m : Nat), data.length < m + 16 →
      himawariPointer data m true = .error .structError)
  ∧ (∀ (data : Bytes) (q : Nat), q < data.length → data.length < q + 5 →
      ∃ e, decodeAtAnchor data (q : Int) = .error e) := by
  refine ⟨?_, ?_, ?_⟩
  · intro data m h
    simp only [himawariPointer, if_false]
    apply unpackU32_err
    rw [pySlice_natCast_len]
    omega
  · intro data m h
    simp only [himawariPointer, if_true]
    apply unpackU32_err
    rw [pySlice_natCast_len]
    omega
  · intro data q hq hlt
    simp only [decodeAtAnchor]
    rw [pyIndex_nat data q hq]
    simp only [exbind_ok]
    by_cases hc : data.getD q 0 = 0xC7
    · rw [if_pos hc]
      rcases Nat.lt_or_ge (q + 1) data.length with hq1 | hq1
      · rw [show ((q : Int) + 1) = ((q + 1 : Nat) : Int) by push_cast; ring,
          pyIndex_nat data (q + 1) hq1]
        simp only [exbind_ok]
        by_cases h85 : data.getD (q + 1) 0 = 0x85
        · rw [if_neg (by simpa using h85)]
          refine ⟨.structError, ?_⟩
          apply unpackU32_err
          rw [show ((q : Int) + 6) = ((q + 6 : Nat) : Int) by push_cast; ring,
            show ((q : Int) + 10) = ((q + 10 : Nat) : Int) by push_cast; ring,
            pySlice_natCast_len]
          omega
        · rw [if_pos h85]
          refine ⟨.structError, ?_⟩
          apply unpackU32_err
          rw [show ((q : Int) + 3) = ((q + 3 : Nat) : Int) by push_cast; ring,
            show ((q : Int) + 7) = ((q + 7 : Nat) : Int) by push_cast; ring,
            pySlice_natCast_len]
          omega
      · rw [show ((q : Int) + 1) = ((q + 1 : Nat) : Int) by push_cast; ring,
          pyIndex_err_ge data (q + 1) hq1, exbind_err]
        exact ⟨.indexError, rfl⟩
    · rw [if_neg hc]
      refine ⟨.structError, ?_⟩
      apply unpackU32_err
      rw [show ((q : Int) + 1) = ((q + 1 : Nat) : Int) by push_cast; ring,
        show ((q : Int) + 5) = ((q + 5 : Nat) : Int) by push_cast; ring,
        pySlice_natCast_len]
      omega

/-- Witness for claim C1 (amended), at two concrete short windows. -/
theorem claim_C1_witness :
    himawariPointer [] 0 false = .error .structError ∧
    himawariPointer [0] 0 true = .error .structError :=
  ⟨claim_C1_amended.1 [] 0 (by decide), claim_C1_amended.2.1 [0] 0 (by decide)⟩

/-- Claim C5 (confirmed): a pointer below the region base yields no blob and
the hit is skipped; a returned blob is clipped to at most
min(blob_len, bytes available - rel) and is never empty, so an empty slice
is never handed to a decoder. -/
theorem claim_C5 :
    ∀ (start addr blobLen : Nat) (data : Bytes),
      (addr < start → locateBlob start addr blobLen data = none)
    ∧ (∀ b, locateBlob start addr blobLen data = some b →
        b.length ≤ min blobLen (data.length - (addr - start)) ∧ b ≠ [])
    ∧ (∀ (m addr2 : Nat), redleavesPointer data m = .ok (some addr2) →
        addr2 < start → redleavesHit data start m = .ok .skip)
    ∧ (∀ (m addr2 : Nat) (z : Bool), himawariPointer data m z = .ok addr2 →
        addr2 < start → himawariHit data start m z = .ok .skip) := by
  intro start addr blobLen data
  refine ⟨?_, ?_, ?_, ?_⟩
  · intro h
    rw [locateBlob, if_pos h]
  · intro b hb
    simp only [locateBlob] at hb
    by_cases h : addr < start
    · rw [if_pos h] at hb
      cases hb
    · rw [if_neg h] at hb
      by_cases hp : 0 < (pySlice data ((addr - start : Nat) : Int)
          ((addr - start + blobLen : Nat) : Int)).length
      · rw [if_pos hp] at hb
        cases hb
        constructor
        · rw [pySlice_natCast_len]
          omega
        · exact List.length_pos.mp hp
      · rw [if_neg hp] at hb
        cases hb
  · intro m addr2 hptr hlt
    simp only [redleavesHit, hptr, exbind_ok]
    rw [if_pos hlt]
  · intro m addr2 z hptr hlt
    simp only [himawariHit, hptr, exbind_ok]
    rw [if_pos hlt]

/-- Witness for claim C5 at concrete inputs. -/
theorem claim_C5_witness :
    locateBlob 5 3 10 [] = none ∧ ([9] : Bytes) ≠ [] :=
  ⟨(claim_C5 5 3 10 []).1 (by decide), ((claim_C5 0 0 4 [9]).2.1 [9] (by decide)).2⟩

/-- Claim C6 (confirmed): in a Himawari-family hit the 32-bit little-endian
configuration pointer is decoded from exactly secondary-pattern offset + 6
(+ 12 in total for zark20rk): the resolved value is a function of precisely
the four bytes at that offset, with no backward search. -/
theorem claim_C6 :
    ∀ (data : Bytes) (m : Nat) (zark : Bool),
      (m + 6 + (if zark then 6 else 0)) + 4 ≤ data.length →
      himawariPointer data m zark =
        .ok (le32At data (m + 6 + (if zark then 6 else 0))) := by
  intro data m zark h
  simp only [himawariPointer]
  rw [show ((m + 6 + (if zark then 6 else 0) + 4 : Nat) : Int)
      = ((m + 6 + (if zark then 6 else 0) : Nat) : Int) + 4 by push_cast; ring]
  rw [pySlice_nat_four data _ h, unpackU32_four]
  rfl

/-- Witness for claim C6: the literal 0x04030201 at offset 6 is recovered. -/
theorem claim_C6_witness :
    himawariPointer [0, 0, 0, 0, 0, 0, 1, 2, 3, 4] 0 false = .ok 67305985 := by
  rw [claim_C6 [0, 0, 0, 0, 0, 0, 1, 2, 3, 4] 0 false (by decide)]
  decide

theorem decodeAtAnchor_c7_85 (data : Bytes) (qn : Nat)
    (h1 : qn + 1 < data.length) (hc : data.getD qn 0 = 0xC7)
    (h85 : data.getD (qn + 1) 0 = 0x85) (hlen : qn + 10 ≤ data.length) :
    decodeAtAnchor data (qn : Int) = .ok (le32At data (qn + 6)) := by
  simp only [decodeAtAnchor]
  rw [pyIndex_nat data qn (by omega)]
  simp only [exbind_ok]
  rw [if_pos hc,
    show ((qn : Int) + 1) = ((qn + 1 : Nat) : Int) by push_cast; ring,
    pyIndex_nat data (qn + 1) h1]
  simp only [exbind_ok]
  rw [if_neg (by simpa using h85),
    show ((qn : Int) + 6) = ((qn + 6 : Nat) : Int) by push_cast; ring,
    show ((qn : Int) + 10) = ((qn + 6 : Nat) : Int) + 4 by push_cast; ring,
    pySlice_nat_four data (qn + 6) (by omega), unpackU32_four]
  rfl

theorem decodeAtAnchor_c7_non85 (data : Bytes) (qn : Nat)
    (h1 : qn + 1 < data.length) (hc : data.getD qn 0 = 0xC7)
    (h85 : data.getD (qn + 1) 0 ≠ 0x85) (hlen : qn + 7 ≤ data.length) :
    decodeAtAnchor data (qn : Int) = .ok (le32At data (qn + 3)) := by
  simp only [decodeAtAnchor]
  rw [pyIndex_nat data qn (by omega)]
  simp only [exbind_ok]
  rw [if_pos hc,
    show ((qn : Int) + 1) = ((qn + 1 : Nat) : Int) by push_cast; ring,
    pyIndex_nat data (qn + 1) h1]
  simp only [exbind_ok]
  rw [if_pos h85,
    show ((qn : Int) + 3) = ((qn + 3 : Nat) : Int) by push_cast; ring,
    show ((qn : Int) + 7) = ((qn + 3 : Nat) : Int) + 4 by push_cast; ring,
    pySlice_nat_four data (qn + 3) (by omega), unpackU32_four]
  rfl

theorem decodeAtAnchor_reg (data : Bytes) (qn : Nat)
    (hq : qn < data.length) (hc : data.getD qn 0 ≠ 0xC7)
    (hlen : qn + 5 ≤ data.length) :
    decodeAtAnchor data (qn : Int) = .ok (le32At data (qn + 1)) := by
  simp only [decodeAtAnchor]
  rw [pyIndex_nat data qn hq]
  simp only [exbind_ok]
  rw [if_neg hc,
    show ((qn : Int) + 1) = ((qn + 1 : Nat) : Int) by push_cast; ring,
    show ((qn : Int) + 5) = ((qn + 1 : Nat) : Int) + 4 by push_cast; ring,
    pySlice_nat_four data (qn + 1) (by omega), unpackU32_four]
  rfl

theorem redleavesPointer_eq_decode (data : Bytes) (m : Nat) (p q : Int)
    (hscan : scanBack data ((m : Int) - 1) = .ok p)
    (hadj : anchorAdjust data p = .ok q) :
    redleavesPointer data m = (decodeAtAnchor data q).bind fun addr => .ok (some addr) := by
  have hs : scanBackAux data (((m : Int) - 1) + data.length + 2).toNat ((m : Int) - 1)
      = .ok p := by rw [scanBack] at hscan; exact hscan
  obtain ⟨b, hpb, hanch⟩ := scanBackAux_ok_anchor data _ _ _ hs
  simp only [redleavesPointer, hscan, exbind_ok, hpb, hanch, if_true, hadj]

/-- Claim C7 (confirmed): once the backward scan has anchored (including the
possible 6-byte step back), the 32-bit little-endian literal is decoded at
the delta fixed by the anchor form: anchor + 3 for 0xC7 with a non-0x85
following byte, anchor + 6 for 0xC7 followed by ModRM 0x85, anchor + 1 for
the single-byte register forms 0xBE / 0xBF. -/
theorem claim_C7 :
    ∀ (data : Bytes) (m : Nat) (p : Int) (qn : Nat),
      scanBack data ((m : Int) - 1) = .ok p →
      anchorAdjust data p = .ok (qn : Int) →
      ((data.getD qn 0 = 0xC7 → qn + 1 < data.length →
          ((data.getD (qn + 1) 0 = 0x85 → qn + 10 ≤ data.length →
             redleavesPointer data m = .ok (some (le32At data (qn + 6))))
         ∧ (data.getD (qn + 1) 0 ≠ 0x85 → qn + 7 ≤ data.length →
             redleavesPointer data m = .ok (some (le32At data (qn + 3))))))
       ∧ ((data.getD qn 0 = 0xBE ∨ data.getD qn 0 = 0xBF) →
            qn + 5 ≤ data.length →
            redleavesPointer data m = .ok (some (le32At data (qn + 1))))) := by
  intro data m p qn hscan hadj
  have hre := redleavesPointer_eq_decode data m p qn hscan hadj
  constructor
  · intro hc h1
    constructor
    · intro h85 hlen
      rw [hre, decodeAtAnchor_c7_85 data qn h1 hc h85 hlen, exbind_ok]
    · intro h85 hlen
      rw [hre, decodeAtAnchor_c7_non85 data qn h1 hc h85 hlen, exbind_ok]
  · intro hc hlen
    have hne : data.getD qn 0 ≠ 0xC7 := by
      rcases hc with hc | hc <;> rw [hc] <;> decide
    rw [hre, decodeAtAnchor_reg data qn (by omega) hne hlen, exbind_ok]

/-- Witness for claim C7: a 0xC7 / ModRM 0x85 anchor with the literal
0x12345678 at anchor + 6 is recovered exactly. -/
theorem claim_C7_witness :
    redleavesPointer
      [0xC7, 0x85, 0x01, 0x00, 0x00, 0x00, 0x78, 0x56, 0x34, 0x12,
       0x68, 0x88, 0x13, 0x00, 0x00, 0xFF] 10 = .ok (some 305419896) := by
  rw [(((claim_C7
      [0xC7, 0x85, 0x01, 0x00, 0x00, 0x00, 0x78, 0x56, 0x34, 0x12,
       0x68, 0x88, 0x13, 0x00, 0x00, 0xFF] 10 0 0
      (by decide) (by decide)).1 (by decide) (by decide)).1 (by decide) (by decide))]
  decide

/-- Claim C8 (counterexample): the backward scan stops on 0xC7 at offset 6
followed by 0x99 (neither 0x85 nor 0x45), steps back 6 bytes to offset 0,
which holds the non-anchor byte 0x11 - and the code then still decodes the
bytes at offsets 1..4 as the pointer literal 0x55443322, contrary to the
claim that a non-anchor byte at the stepped-back position is not decoded. -/
theorem claim_C8_counterexample :
    isAnchor 0x11 = false ∧
    scanBack [0x11, 0x22, 0x33, 0x44, 0x55, 0x66, 0xC7, 0x99,
      0x68, 0x88, 0x13, 0x00, 0x00, 0xFF] ((8 : Int) - 1) = .ok 6 ∧
    anchorAdjust [0x11, 0x22, 0x33, 0x44, 0x55, 0x66, 0xC7, 0x99,
      0x68, 0x88, 0x13, 0x00, 0x00, 0xFF] 6 = .ok 0 ∧
    redleavesPointer [0x11, 0x22, 0x33, 0x44, 0x55, 0x66, 0xC7, 0x99,
      0x68, 0x88, 0x13, 0x00, 0x00, 0xFF] 8 = .ok (some 1430532898) := by
  decide

/-- Claim C8 (amended): when the scan stops on 0xC7 whose following byte is
neither 0x85 nor 0x45, the position is stepped back exactly 6 bytes and the
decode dispatch is applied there; a byte other than 0xC7 at the new
position - anchor or not - is treated as the register form and the literal
is decoded at new position + 1. -/
theorem claim_C8_amended :
    ∀ (data : Bytes) (p : Int) (b1 : Nat),
      pyIndex data p = .ok 0xC7 → pyIndex data (p + 1) = .ok b1 →
      b1 ≠ 0x85 → b1 ≠ 0x45 →
      anchorAdjust data p = .ok (p - 6)
    ∧ (∀ b0, pyIndex data (p - 6) = .ok b0 → b0 ≠ 0xC7 →
        decodeAtAnchor data (p - 6) =
          unpackU32 (pySlice data (p - 6 + 1) (p - 6 + 5))) := by
  intro data p b1 hp hp1 h85 h45
  constructor
  · simp only [anchorAdjust, hp, exbind_ok, hp1]
    rw [if_pos trivial, if_pos ⟨h85, h45⟩]
  · intro b0 hb0 hbc
    simp only [decodeAtAnchor, hb0, exbind_ok]
    rw [if_neg hbc]

/-- Witness for claim C8 (amended) on the counterexample window. -/
theorem claim_C8_witness :
    anchorAdjust [0x11, 0x22, 0x33, 0x44, 0x55, 0x66, 0xC7, 0x99,
      0x68, 0x88, 0x13, 0x00, 0x00, 0xFF] 6 = .ok (6 - 6) :=
  (claim_C8_amended [0x11, 0x22, 0x33, 0x44, 0x55, 0x66, 0xC7, 0x99,
      0x68, 0x88, 0x13, 0x00, 0x00, 0xFF] 6 0x99
    (by decide) (by decide) (by decide) (by decide)).1

theorem get_vad_base_none_iff (vads : List Vad) (a : Nat) :
    get_vad_base vads a = none ↔ ∀ v ∈ vads, ¬(v.Start ≤ a ∧ a < v.End) := by
  induction vads with
  | nil => simp [get_vad_base]
  | cons v tl ih =>
    by_cases hv : a ≥ v.Start ∧ a < v.End
    · simp only [get_vad_base, if_pos hv, List.forall_mem_cons]
      constructor
      · intro h; cases h
      · intro h; exact absurd hv h.1
    · simp only [get_vad_base, if_neg hv, ih, List.forall_mem_cons]
      exact ⟨fun h => ⟨hv, h⟩, fun h => h.2⟩

theorem get_vad_base_some (vads : List Vad) (a s : Nat)
    (h : get_vad_base vads a = some s) :
    ∃ v ∈ vads, v.Start = s ∧ v.Start ≤ a ∧ a < v.End := by
  induction vads with
  | nil => cases h
  | cons v tl ih =>
    by_cases hv : a ≥ v.Start ∧ a < v.End
    · rw [get_vad_base, if_pos hv] at h
      cases h
      exact ⟨v, by simp, rfl, hv.1, hv.2⟩
    · rw [get_vad_base, if_neg hv] at h
      obtain ⟨w, hw, hrest⟩ := ih h
      exact ⟨w, List.mem_cons_of_mem _ hw, hrest⟩

theorem get_vad_end_none_iff (vads : List Vad) (b : Nat) :
    get_vad_end vads b = none ↔ ∀ v ∈ vads, v.Start ≠ b := by
  induction vads with
  | nil => simp [get_vad_end]
  | cons v tl ih =>
    by_cases hv : b = v.Start
    · simp only [get_vad_end, if_pos hv, List.forall_mem_cons]
      constructor
      · intro h; cases h
      · intro h; exact absurd hv.symm h.1
    · simp only [get_vad_end, if_neg hv, ih, List.forall_mem_cons]
      exact ⟨fun h => ⟨fun he => hv he.symm, h⟩, fun h => h.2⟩

theorem get_vad_end_some (vads : List Vad) (b e : Nat)
    (h : get_vad_end vads b = some e) :
    ∃ v ∈ vads, v.Start = b ∧ e = v.End + 1 := by
  induction vads with
  | nil => cases h
  | cons v tl ih =>
    by_cases hv : b = v.Start
    · rw [get_vad_end, if_pos hv] at h
      cases h
      exact ⟨v, by simp, hv.symm, rfl⟩
    · rw [get_vad_end, if_neg hv] at h
      obtain ⟨w, hw, hrest⟩ := ih h
      exact ⟨w, List.mem_cons_of_mem _ hw, hrest⟩

/-- Claim C9 (counterexample): the region with vad Start 4096 and inclusive
End 8191 spans the half-open range [4096, 8192) - the very range whose end
boundary get_vad_end reports as 8192 - yet get_vad_base returns none for the
contained address 8191, because it tests address < vad.End against the
inclusive End. -/
theorem claim_C9_counterexample :
    specRegionContains ⟨4096, 8191⟩ 8191 ∧
    get_vad_base [⟨4096, 8191⟩] 8191 = none ∧
    get_vad_end [⟨4096, 8191⟩] 4096 = some 8192 := by
  decide

/-- Claim C9 (amended): get_vad_base returns the base of a region with
Start <= a < End (one byte short of the half-open end End + 1 that
get_vad_end uses to size the byte window, so the last address of a region is
never matched), and none exactly when no region satisfies that test;
get_vad_end returns End + 1 for a region whose Start equals the query, and
none exactly when no region has that base. -/
theorem claim_C9_amended :
    ∀ (vads : List Vad) (a bq : Nat),
      (get_vad_base vads a = none ↔ ∀ v ∈ vads, ¬(v.Start ≤ a ∧ a < v.End))
    ∧ (∀ s, get_vad_base vads a = some s →
        ∃ v ∈ vads, v.Start = s ∧ v.Start ≤ a ∧ a < v.End)
    ∧ (get_vad_end vads bq = none ↔ ∀ v ∈ vads, v.Start ≠ bq)
    ∧ (∀ e, get_vad_end vads bq = some e →
        ∃ v ∈ vads, v.Start = bq ∧ e = v.End + 1) :=
  fun vads a bq =>
    ⟨get_vad_base_none_iff vads a,
     fun s h => get_vad_base_some vads a s h,
     get_vad_end_none_iff vads bq,
     fun e h => get_vad_end_some vads bq e h⟩

/-- Witness for claim C9 (amended) at a concrete region list. -/
theorem claim_C9_witness :
    get_vad_base [⟨10, 20⟩] 25 = none ∧ get_vad_end [⟨10, 20⟩] 11 = none :=
  ⟨(claim_C9_amended [⟨10, 20⟩] 25 11).1.mpr (by decide),
   (claim_C9_amended [⟨10, 20⟩] 25 11).2.2.1.mpr (by decide)⟩

theorem pyIndex_neg (s : Bytes) (k : Nat) (hk : 1 ≤ k) (hle : k ≤ s.length) :
    pyIndex s (-(k : Int)) = .ok (s.getD (s.length - k) 0) := by
  have h1 : (-(k : Int)) < 0 := by omega
  have h2 : (0 : Int) ≤ -(k : Int) + s.length := by omega
  have h3 : -(k : Int) + s.length < (s.length : Int) := by omega
  have h4 : ((-(k : Int)) + s.length).toNat = s.length - k := by omega
  simp [pyIndex, h1, h2, h3, h4]

theorem pySlice_eq_take_drop (s : Bytes) (a b : Nat) (hb : b ≤ s.length)
    (hab : a ≤ b) :
    pySlice s (a : Int) (b : Int) = (s.drop a).take (b - a) := by
  rw [pySlice, pyBound_natCast, pyBound_natCast, Nat.min_eq_left hb,
    Nat.min_eq_left (le_trans hab hb)]

theorem connect_mode_ok_iff (v : Nat) :
    (∃ nm, CONNECT_MODE v = .ok nm) ↔ (v = 1 ∨ v = 2 ∨ v = 3 ∨ v = 4) := by
  unfold CONNECT_MODE
  split_ifs <;> simp_all

/-- A full-length 2100-byte RedLeaves blob whose mode field (offset 0x1D0)
holds the out-of-range value 5 and whose other bytes are null. -/
def rlModeFiveBlob : Bytes :=
  List.replicate 0x1D0 0 ++ ([5, 0, 0, 0] ++ List.replicate 1632 0)

theorem rlModeFiveBlob_len : rlModeFiveBlob.length = 2100 := by
  simp [rlModeFiveBlob, -List.reduceReplicate]

theorem rlModeFiveBlob_mode : le32At rlModeFiveBlob 0x1D0 = 5 := by
  have hrep : (List.replicate 0x1D0 (0 : Nat)).length = 0x1D0 := by
    simp [-List.reduceReplicate]
  have h0 : rlModeFiveBlob.getD 464 0 = 5 := by
    rw [rlModeFiveBlob, getD_append_ge _ _ 464 0 (by rw [hrep]), hrep]
    simp [-List.reduceReplicate]
  have h1 : rlModeFiveBlob.getD 465 0 = 0 := by
    rw [rlModeFiveBlob, getD_append_ge _ _ 465 0 (by rw [hrep]; omega), hrep]
    simp [-List.reduceReplicate]
  have h2 : rlModeFiveBlob.getD 466 0 = 0 := by
    rw [rlModeFiveBlob, getD_append_ge _ _ 466 0 (by rw [hrep]; omega), hrep]
    simp [-List.reduceReplicate]
  have h3 : rlModeFiveBlob.getD 467 0 = 0 := by
    rw [rlModeFiveBlob, getD_append_ge _ _ 467 0 (by rw [hrep]; omega), hrep]
    simp [-List.reduceReplicate]
  simp only [le32At, show (464 : Nat) + 1 = 465 from rfl,
    show (464 : Nat) + 2 = 466 from rfl, show (464 : Nat) + 3 = 467 from rfl,
    h0, h1, h2, h3]
  decide

theorem parse_config_modeFive : parse_config rlModeFiveBlob = .error .keyError := by
  rw [parse_config_eq, if_pos (by rw [rlModeFiveBlob_len]), rlModeFiveBlob_mode]
  rfl

/-- Claim C10 (counterexample): a blob of the full 2100-byte RedLeaves layout
length still fails to decode when its mode field holds 5, so decode success
is not equivalent to the blob reaching the full layout length. -/
theorem claim_C10_counterexample :
    2100 ≤ rlModeFiveBlob.length ∧
    parse_config rlModeFiveBlob = .error .keyError :=
  ⟨by rw [rlModeFiveBlob_len], parse_config_modeFive⟩

/-- Claim C10 (amended): the only guard between the sliced blob and the
decoder is non-emptiness (a located blob is handed to parse_config exactly
as sliced); every blob shorter than the layout makes the fixed-offset unpack
raise struct.error; the Himawari-family decode succeeds exactly on blobs of
at least 880 bytes, while the RedLeaves decode succeeds exactly on blobs of
at least 2100 bytes whose mode value also lies in {1, 2, 3, 4}. -/
theorem claim_C10_amended :
    ∀ (cfg : Bytes),
      ((∃ r, parse_config_himawari cfg = .ok r) ↔ 880 ≤ cfg.length)
    ∧ (cfg.length < 880 → parse_config_himawari cfg = .error .structError)
    ∧ ((∃ r, parse_config cfg = .ok r) ↔
        (2100 ≤ cfg.length ∧ (le32At cfg 0x1D0 = 1 ∨ le32At cfg 0x1D0 = 2 ∨
          le32At cfg 0x1D0 = 3 ∨ le32At cfg 0x1D0 = 4)))
    ∧ (cfg.length < 2100 → parse_config cfg = .error .structError)
    ∧ (∀ (start m addr : Nat) (data b : Bytes),
        redleavesPointer data m = .ok (some addr) → ¬(addr < start) →
        locateBlob start addr 2100 data = some b →
        redleavesHit data start m = (parse_config b).map HitResult.redleaves) := by
  intro cfg
  refine ⟨?_, ?_, ?_, ?_, ?_⟩
  · rw [parse_config_himawari_eq]
    by_cases h : 880 ≤ cfg.length
    · rw [if_pos h]
      simp [h]
    · rw [if_neg h]
      simp [h]
  · intro h
    rw [parse_config_himawari_eq, if_neg (by omega)]
  · rw [parse_config_eq]
    by_cases h : 2100 ≤ cfg.length
    · rw [if_pos h]
      cases hm : CONNECT_MODE (le32At cfg 0x1D0) with
      | ok nm =>
        simp only [h, true_and]
        constructor
        · intro _
          exact (connect_mode_ok_iff _).mp ⟨nm, hm⟩
        · intro _
          exact ⟨rlSpecRecord cfg nm, rfl⟩
      | error e =>
        simp only [h, true_and]
        constructor
        · rintro ⟨r, hr⟩
          cases hr
        · intro hv
          obtain ⟨nm, hnm⟩ := (connect_mode_ok_iff _).mpr hv
          rw [hnm] at hm
          cases hm
    · rw [if_neg h]
      constructor
      · rintro ⟨r, hr⟩
        cases hr
      · rintro ⟨h2100, _⟩
        exact absurd h2100 h
  · intro h
    rw [parse_config_eq, if_neg (by omega)]
  · intro start m addr data b hptr hlt hloc
    simp only [redleavesHit, hptr, exbind_ok]
    rw [if_neg hlt, hloc]
    show (parse_config b).bind (fun out => Except.ok (HitResult.redleaves out)) =
      (parse_config b).map HitResult.redleaves
    cases parse_config b <;> rfl

/-- Witness for claim C10 (amended) at a one-byte blob. -/
theorem claim_C10_witness :
    parse_config_himawari [0] = .error .structError ∧
    parse_config [0] = .error .structError :=
  ⟨(claim_C10_amended [0]).2.1 (by decide), (claim_C10_amended [0]).2.2.2.1 (by decide)⟩

theorem scanBackAux_succ (data : Bytes) (fuel : Nat) (oc : Int) :
    scanBackAux data (fuel + 1) oc =
      (pyIndex data oc).bind fun b =>
        if isAnchor b then .ok oc else scanBackAux data fuel (oc - 1) := rfl

/-- A RedLeaves byte window: the secondary pattern at offset 0, the
2100-byte mode-5 blob right after it, and a 0xBE anchor byte at the very
end.  The backward scan starts at offset -1, which under Python indexing is
the final 0xBE; its +1 literal is the first four pattern bytes,
68 88 13 00 = 0x00138868, so with region base 0x00138862 the blob sliced at
relative offset 6 is exactly rlModeFiveBlob. -/
def rlAbortWindow : Bytes :=
  [0x68, 0x88, 0x13, 0x00, 0x00, 0xFF] ++ (rlModeFiveBlob ++ [0xBE])

theorem rlAbortWindow_len : rlAbortWindow.length = 2107 := by
  simp [rlAbortWindow, rlModeFiveBlob, -List.reduceReplicate]

theorem rlAbortWindow_getD2106 : rlAbortWindow.getD 2106 0 = 0xBE := by
  rw [rlAbortWindow, getD_append_ge _ _ 2106 0 (by simp),
    show (2106 : Nat) - [0x68, 0x88, 0x13, 0x00, 0x00, 0xFF].length = 2100 from rfl,
    getD_append_ge _ _ 2100 0 (by rw [rlModeFiveBlob_len]),
    show ∀ k : Nat, k - rlModeFiveBlob.length = k - 2100 by
      intro k; rw [rlModeFiveBlob_len]]
  rfl

theorem rlAbortWindow_last : pyIndex rlAbortWindow (-1) = .ok 0xBE := by
  have h := pyIndex_neg rlAbortWindow 1 (by omega) (by rw [rlAbortWindow_len]; omega)
  rw [rlAbortWindow_len] at h
  simp only [Nat.cast_one] at h
  rw [show (2107 : Nat) - 1 = 2106 from rfl] at h
  rw [h, rlAbortWindow_getD2106]

theorem rlAbortWindow_scan : scanBack rlAbortWindow (-1) = .ok (-1) := by
  rw [scanBack, rlAbortWindow_len,
    show ((-1 : Int) + ((2107 : Nat) : Int) + 2).toNat = 2108 by decide,
    show (2108 : Nat) = 2107 + 1 from rfl, scanBackAux_succ, rlAbortWindow_last]
  simp only [exbind_ok]
  rw [if_pos (show isAnchor 0xBE = true from rfl)]

theorem rlAbortWindow_ptr : redleavesPointer rlAbortWindow 0 = .ok (some 1280104) := by
  have hadj : anchorAdjust rlAbortWindow (-1) = .ok (-1) := by
    simp only [anchorAdjust, rlAbortWindow_last, exbind_ok]
    rw [if_neg (by decide)]
  have hdec : decodeAtAnchor rlAbortWindow (-1) = .ok 1280104 := by
    simp only [decodeAtAnchor, rlAbortWindow_last, exbind_ok]
    rw [if_neg (by decide),
      show ((-1 : Int) + 1) = ((0 : Nat) : Int) by norm_num,
      show ((-1 : Int) + 5) = ((4 : Nat) : Int) by norm_num,
      pySlice_eq_take_drop rlAbortWindow 0 4 (by rw [rlAbortWindow_len]; omega) (by omega),
      show (4 : Nat) - 0 = 4 from rfl, List.drop_zero, rlAbortWindow,
      List.take_append_eq_append_take,
      show List.take 4 [0x68, 0x88, 0x13, 0x00, 0x00, 0xFF] = [0x68, 0x88, 0x13, 0x00] from rfl,
      show (4 : Nat) - [0x68, 0x88, 0x13, 0x00, 0x00, 0xFF].length = 0 from rfl,
      List.take_zero, List.append_nil]
    decide
  simp only [redleavesPointer, Nat.cast_zero, zero_sub]
  rw [rlAbortWindow_scan]
  simp only [exbind_ok]
  rw [rlAbortWindow_last]
  simp only [exbind_ok]
  rw [if_pos (show isAnchor 0xBE = true from rfl), hadj]
  simp only [exbind_ok]
  rw [hdec]
  rfl

theorem rlAbortWindow_blob :
    locateBlob 1280098 1280104 2100 rlAbortWindow = some rlModeFiveBlob := by
  simp only [locateBlob]
  rw [if_neg (by omega),
    show (1280104 : Nat) - 1280098 = 6 from rfl,
    show (6 : Nat) + 2100 = 2106 from rfl,
    pySlice_eq_take_drop rlAbortWindow 6 2106 (by rw [rlAbortWindow_len]; omega) (by omega),
    show (2106 : Nat) - 6 = 2100 from rfl,
    rlAbortWindow, drop_append_ge _ _ 6 (by simp),
    show (6 : Nat) - [0x68, 0x88, 0x13, 0x00, 0x00, 0xFF].length = 0 from rfl,
    List.drop_zero, List.take_left' rlModeFiveBlob_len]
  rw [if_pos (by rw [rlModeFiveBlob_len]; omega)]

theorem rlAbortWindow_hit :
    render_text_hit .RedLeaves 1280098 rlAbortWindow = .error .keyError := by
  have hpc : patternCheck .RedLeaves rlAbortWindow = .ok (some 0) := by
    have hf : findSub rlAbortWindow (secondaryPattern .RedLeaves) = some 0 :=
      findSub_zero _ _ (by decide)
    simp only [patternCheck]
    rw [hf]
  simp only [render_text_hit, hpc, exbind_ok]
  simp only [redleavesHit, rlAbortWindow_ptr, exbind_ok]
  rw [if_neg (by omega), rlAbortWindow_blob]
  show (parse_config rlModeFiveBlob).bind (fun out => Except.ok (HitResult.redleaves out)) =
    .error .keyError
  rw [parse_config_modeFive]
  rfl

/-- Claim C3 (counterexample): a RedLeaves hit whose recovered blob has mode
value 5 raises the enumeration KeyError, and that exception ends the whole
render loop: with a second well-formed hit queued behind it, the run returns
the KeyError instead of the second hit result, although the second hit alone
would have been processed. -/
theorem claim_C3_counterexample :
    render_text [(.RedLeaves, 1280098, rlAbortWindow), (.RedLeaves, 0, [])] =
      .error .keyError ∧
    render_text [(.RedLeaves, 0, [])] = .ok [.skip] := by
  constructor
  · simp only [render_text, rlAbortWindow_hit, exbind_err]
  · decide

/-- Claim C3 (amended): a RedLeaves blob whose decoded mode value is outside
{1, 2, 3, 4} makes parse_config raise KeyError (the enumeration lookup has
no default), but the error is not contained to that hit: any exception from
one hit aborts the render loop over all remaining hits. -/
theorem claim_C3_amended :
    ∀ (cfg : Bytes) (v : Nat),
      (2100 ≤ cfg.length → le32At cfg 0x1D0 = v →
        ¬(v = 1 ∨ v = 2 ∨ v = 3 ∨ v = 4) → parse_config cfg = .error .keyError)
    ∧ (∀ (fam : Family) (s : Nat) (d : Bytes)
        (rest : List (Family × Nat × Bytes)) (e : PyErr),
        render_text_hit fam s d = .error e →
        render_text ((fam, s, d) :: rest) = .error e) := by
  intro cfg v
  constructor
  · intro hlen hmode hv
    have h1 : ¬ v = 1 := by tauto
    have h2 : ¬ v = 2 := by tauto
    have h3 : ¬ v = 3 := by tauto
    have h4 : ¬ v = 4 := by tauto
    have hcm : CONNECT_MODE v = .error .keyError := by
      rw [CONNECT_MODE, if_neg h1, if_neg h2, if_neg h3, if_neg h4]
    rw [parse_config_eq, if_pos hlen, hmode, hcm]
  · intro fam s d rest e h
    simp only [render_text, h, exbind_err]

/-- Witness for claim C3 (amended): the mode-5 blob raises KeyError. -/
theorem claim_C3_witness :
    parse_config rlModeFiveBlob = .error .keyError :=
  (claim_C3_amended rlModeFiveBlob 5).1 (by rw [rlModeFiveBlob_len])
    rlModeFiveBlob_mode (by decide)

/-- A Himawari-family blob whose UserAgent field (offset 0x262) holds the
bytes 41 00 42. -/
def uaBlob : Bytes :=
  List.replicate 0x262 0 ++ ([0x41, 0x00, 0x42] ++ List.replicate 267 0)

theorem uaBlob_len : uaBlob.length = 880 := by
  simp [uaBlob, -List.reduceReplicate]

theorem uaBlob_field :
    fieldBytes uaBlob 0x262 260 = [0x41, 0x00, 0x42] ++ List.replicate 257 0 := by
  simp [fieldBytes, uaBlob, List.drop_append_eq_append_drop,
    List.take_append_eq_append_take, List.drop_of_length_le,
    List.take_of_length_le, -List.reduceReplicate]

/-- Claim C4 (counterexample): the decoded UserAgent field is right-trimmed
at the first null byte - the 41 00 42 field comes out as [0x41] - whereas
the claim says all null bytes are stripped from it, which would give
[0x41, 0x42]. -/
theorem claim_C4_counterexample :
    (parse_config_himawari uaBlob).map HimaOut.ua = .ok [0x41] ∧
    stripNul (fieldBytes uaBlob 0x262 260) = [0x41, 0x42] := by
  constructor
  · rw [parse_config_himawari_eq, if_pos (by rw [uaBlob_len])]
    show Except.ok (himSpecRecord uaBlob).ua = .ok [0x41]
    rw [show (himSpecRecord uaBlob).ua = splitNul (fieldBytes uaBlob 0x262 260) from rfl,
      uaBlob_field]
    simp [splitNul, -List.reduceReplicate]
  · rw [uaBlob_field]
    simp [stripNul, -List.reduceReplicate]

/-- The synthetic 2100-byte round-trip buffer of the spec: "1.2.3.4\x00" at
offset 0, the u32 443 at 0xC0, the u32 3 at 0x1D0, null elsewhere. -/
def rlRoundTripBuf : Bytes :=
  [0x31, 0x2E, 0x32, 0x2E, 0x33, 0x2E, 0x34, 0x00] ++
  (List.replicate 184 0 ++ ([0xBB, 0x01, 0x00, 0x00] ++
  (List.replicate 268 0 ++ ([0x03, 0x00, 0x00, 0x00] ++ List.replicate 1632 0))))

/-- The record the round-trip buffer must decode to. -/
def rlRoundTripExpected : RLOut :=
  { server1 := [0x31, 0x2E, 0x32, 0x2E, 0x33, 0x2E, 0x34], server2 := [],
    server3 := [], port := 443, mode := 3, modeName := "HTTPS", id := [],
    mutex := [], injection := [], rc4key := [] }

theorem rlRoundTripBuf_len : rlRoundTripBuf.length = 2100 := by
  simp [rlRoundTripBuf, -List.reduceReplicate]

theorem rlRoundTripBuf_mode : le32At rlRoundTripBuf 0x1D0 = 3 := by
  have h0 : rlRoundTripBuf.getD 464 0 = 3 := by
    simp [rlRoundTripBuf, List.getElem?_append_right, List.getElem_append_right,
      -List.reduceReplicate]
  have h1 : rlRoundTripBuf.getD 465 0 = 0 := by
    simp [rlRoundTripBuf, List.getElem?_append_right, List.getElem_append_right,
      -List.reduceReplicate]
  have h2 : rlRoundTripBuf.getD 466 0 = 0 := by
    simp [rlRoundTripBuf, List.getElem?_append_right, List.getElem_append_right,
      -List.reduceReplicate]
  have h3 : rlRoundTripBuf.getD 467 0 = 0 := by
    simp [rlRoundTripBuf, List.getElem?_append_right, List.getElem_append_right,
      -List.reduceReplicate]
  simp only [le32At, show (464 : Nat) + 1 = 465 from rfl,
    show (464 : Nat) + 2 = 466 from rfl, show (464 : Nat) + 3 = 467 from rfl,
    h0, h1, h2, h3]
  decide

theorem rlRoundTripBuf_port : le32At rlRoundTripBuf 0xC0 = 443 := by
  have h0 : rlRoundTripBuf.getD 192 0 = 0xBB := by
    simp [rlRoundTripBuf, List.getElem?_append_right, List.getElem_append_right,
      -List.reduceReplicate]
  have h1 : rlRoundTripBuf.getD 193 0 = 1 := by
    simp [rlRoundTripBuf, List.getElem?_append_right, List.getElem_append_right,
      -List.reduceReplicate]
  have h2 : rlRoundTripBuf.getD 194 0 = 0 := by
    simp [rlRoundTripBuf, List.getElem?_append_right, List.getElem_append_right,
      -List.reduceReplicate]
  have h3 : rlRoundTripBuf.getD 195 0 = 0 := by
    simp [rlRoundTripBuf, List.getElem?_append_right, List.getElem_append_right,
      -List.reduceReplicate]
  simp only [le32At, show (192 : Nat) + 1 = 193 from rfl,
    show (192 : Nat) + 2 = 194 from rfl, show (192 : Nat) + 3 = 195 from rfl,
    h0, h1, h2, h3]
  decide

theorem rlRoundTripBuf_server1 :
    fieldBytes rlRoundTripBuf 0x0 64 =
      [0x31, 0x2E, 0x32, 0x2E, 0x33, 0x2E, 0x34, 0x00] ++ List.replicate 56 0 := by
  simp [fieldBytes, rlRoundTripBuf, List.take_append_eq_append_take,
    List.take_of_length_le, -List.reduceReplicate]

theorem rlRoundTripBuf_server2 : fieldBytes rlRoundTripBuf 0x40 64 = List.replicate 64 0 := by
  simp [fieldBytes, rlRoundTripBuf, List.drop_append_eq_append_drop,
    List.take_append_eq_append_take, List.drop_of_length_le,
    List.take_of_length_le, -List.reduceReplicate]

theorem rlRoundTripBuf_server3 : fieldBytes rlRoundTripBuf 0x80 64 = List.replicate 64 0 := by
  simp [fieldBytes, rlRoundTripBuf, List.drop_append_eq_append_drop,
    List.take_append_eq_append_take, List.drop_of_length_le,
    List.take_of_length_le, -List.reduceReplicate]

theorem rlRoundTripBuf_id : fieldBytes rlRoundTripBuf 0x1E4 64 = List.replicate 64 0 := by
  simp [fieldBytes, rlRoundTripBuf, List.drop_append_eq_append_drop,
    List.take_append_eq_append_take, List.drop_of_length_le,
    List.take_of_length_le, -List.reduceReplicate]

theorem rlRoundTripBuf_mutex : fieldBytes rlRoundTripBuf 0x500 550 = List.replicate 550 0 := by
  simp [fieldBytes, rlRoundTripBuf, List.drop_append_eq_append_drop,
    List.take_append_eq_append_take, List.drop_of_length_le,
    List.take_of_length_le, -List.reduceReplicate]

theorem rlRoundTripBuf_injection :
    fieldBytes rlRoundTripBuf 0x726 104 = List.replicate 104 0 := by
  simp [fieldBytes, rlRoundTripBuf, List.drop_append_eq_append_drop,
    List.take_append_eq_append_take, List.drop_of_length_le,
    List.take_of_length_le, -List.reduceReplicate]

theorem rlRoundTripBuf_rc4key : fieldBytes rlRoundTripBuf 0x82A 10 = List.replicate 10 0 := by
  simp [fieldBytes, rlRoundTripBuf, List.drop_append_eq_append_drop,
    List.take_append_eq_append_take, List.drop_of_length_le,
    List.take_of_length_le, -List.reduceReplicate]

/-- Claim C4 (amended): every field is read at its documented fixed offset
and width; server, ID, key and also the UserAgent field are right-trimmed at
the first null byte, while mutex and injection have all null bytes stripped
(the claim wrongly lists the user-agent among the null-stripped fields); and
the synthetic 2100-byte round-trip buffer decodes to Server1 = "1.2.3.4",
Port = 443, Mode = 3 (HTTPS). -/
theorem claim_C4_amended :
    ∀ (cfg cfgH : Bytes) (nm : String),
      (2100 ≤ cfg.length → CONNECT_MODE (le32At cfg 0x1D0) = .ok nm →
        parse_config cfg = .ok (rlSpecRecord cfg nm))
    ∧ (880 ≤ cfgH.length → parse_config_himawari cfgH = .ok (himSpecRecord cfgH))
    ∧ parse_config rlRoundTripBuf = .ok rlRoundTripExpected := by
  intro cfg cfgH nm
  refine ⟨?_, ?_, ?_⟩
  · intro hlen hcm
    rw [parse_config_eq, if_pos hlen, hcm]
  · intro hlen
    rw [parse_config_himawari_eq, if_pos hlen]
  · rw [parse_config_eq, if_pos (by rw [rlRoundTripBuf_len]), rlRoundTripBuf_mode,
      show CONNECT_MODE 3 = Except.ok "HTTPS" from rfl]
    simp only [rlSpecRecord, rlRoundTripExpected, Except.ok.injEq, RLOut.mk.injEq]
    refine ⟨?_, ?_, ?_, ?_, ?_, ?_, ?_, ?_, ?_, ?_⟩
    · rw [rlRoundTripBuf_server1]
      simp [splitNul, -List.reduceReplicate]
    · rw [rlRoundTripBuf_server2, splitNul_replicate_zero]
    · rw [rlRoundTripBuf_server3, splitNul_replicate_zero]
    · exact rlRoundTripBuf_port
    · exact rlRoundTripBuf_mode
    · trivial
    · rw [rlRoundTripBuf_id, splitNul_replicate_zero]
    · rw [rlRoundTripBuf_mutex, stripNul_replicate_zero]
    · rw [rlRoundTripBuf_injection, stripNul_replicate_zero]
    · rw [rlRoundTripBuf_rc4key, splitNul_replicate_zero]

/-- Witness for claim C4 (amended) at the uaBlob input. -/
theorem claim_C4_witness :
    parse_config_himawari uaBlob = .ok (himSpecRecord uaBlob) :=
  (claim_C4_amended [] uaBlob "TCP").2.1 (by rw [uaBlob_len])
